import Mathlib

/-!
Verification of the presubmit result-reporting core of the vanadium-go
devtools repository (src/v23/misc.go, result command section, together with
the presubmit helpers in src/unnamed/part_001).

Go strings are modelled as Lean `String`; Go maps with integer values as
functions `String → Nat` (missing key = zero value); fallible external
lookups (Jenkins REST calls, file reads, Gerrit queries) as `Option` /
`Except` valued fields of an explicit world state.  All definitions are
computable and translated from the source files, except where a definition
is explicitly marked as modelled from the spec because the defining Go file
is not part of src/.
-/

namespace Presubmit

/-- Fuel-driven worker for goReplaceAll.  Each step consumes one unit of
fuel and at least one character, so fuel = initial length suffices; the
out-of-fuel arm is unreachable under that invariant. -/
def goReplaceAllAux (pat rep : List Char) : Nat → List Char → List Char
  | _, [] => []
  | 0, s => s
  | fuel + 1, x :: xs =>
    if pat ≠ [] ∧ pat.isPrefixOf (x :: xs) then
      rep ++ goReplaceAllAux pat rep fuel ((x :: xs).drop pat.length)
    else
      x :: goReplaceAllAux pat rep fuel xs

/-- Model of Go `strings.Replace(s, pat, rep, -1)` (replace all
non-overlapping occurrences, scanning left to right) on character lists.
The sources only ever call it with a non-empty pattern; for an empty
pattern this model returns the input unchanged. -/
def goReplaceAll (s pat rep : List Char) : List Char :=
  goReplaceAllAux pat rep s.length s

/-! ## Data model -/

/-- testutil test status. Modelled from the spec: the testutil file defining
the status constants is not under src/; the spec (section 3, TestRunResult)
lists the status enum Passed | Failed | TimedOut | Skipped | MergeConflict,
matching the constant names TestPassed, TestFailed, TestTimedOut,
TestSkipped, TestFailedMergeConflict used throughout src/. -/
inductive TestStatus where
  | testPassed
  | testFailed
  | testTimedOut
  | testSkipped
  | testFailedMergeConflict
deriving DecidableEq

/-- testutil.TestResult, restricted to the fields read by src/v23/misc.go:
Status, TimeoutValue (a Go time.Duration, modelled as an integer number of
nanoseconds) and MergeConflictCL. -/
structure TestResult where
  status : TestStatus
  timeoutValue : Int
  mergeConflictCL : String
deriving DecidableEq

/-- testResultInfo (src/v23/misc.go, result command section). -/
structure TestResultInfo where
  result : TestResult
  testName : String
  slaveLabel : String
  timestamp : Int
  postSubmitResult : String
deriving DecidableEq

/-- jenkins.TestCase. The jenkins library is not under src/; the structure
is modelled from its construction sites in src/v23/misc.go (fields
ClassName and Name). -/
structure TestCase where
  className : String
  name : String
deriving DecidableEq

/-- TestCase.Equal. Modelled from the spec: the jenkins library method is
not under src/; the spec (section 4.3) prescribes exact string equality on
the (class name, test name) pair, and the older in-src copy of this logic
(testCase.equal in the third section of src/v23/misc.go) compares exactly
these two fields. -/
def TestCase.Equal (t t2 : TestCase) : Bool :=
  t.className == t2.className && t.name == t2.name

/-- One testcase element of a parsed xUnit report (the testSuites type of
src/v23/misc.go): class name attribute, name attribute, and the character
data of the failure element (empty when the case passed). -/
structure XUnitTestCase where
  classname : String
  name : String
  failureData : String
deriving DecidableEq

/-- One testsuite element of a parsed xUnit report. -/
structure XUnitTestSuite where
  name : String
  testcases : List XUnitTestCase
deriving DecidableEq

/-- unknownStatus constant (src/unnamed/part_001). -/
def unknownStatus : String := "UNKNOWN"

/-- failureType (src/v23/misc.go). -/
inductive failureType where
  | fixedFailure
  | newFailure
  | knownFailure
deriving DecidableEq

/-- failureType.String (src/v23/misc.go). -/
def failureType.string : failureType → String
  | .fixedFailure => "FIXED FAILURE"
  | .newFailure => "NEW FAILURE"
  | .knownFailure => "KNOWN FAILURE"

/-- failedTestCaseInfo (src/v23/misc.go). -/
structure FailedTestCaseInfo where
  className : String
  testCaseName : String
  seenTestsCount : Nat
  testName : String
  slaveLabel : String
deriving DecidableEq

/-- failedTestCasesGroups = map[failureType][]failedTestCaseInfo, modelled
with one list per failure type; Go appends preserve order per type, and
appends to distinct types commute, so the three-field form is faithful. -/
structure FailedTestCasesGroups where
  newFailures : List FailedTestCaseInfo
  knownFailures : List FailedTestCaseInfo
  fixedFailures : List FailedTestCaseInfo
deriving DecidableEq

/-! ## Jenkins interface model -/

/-- jenkins.BuildInfo: numeric id serialized as a string, completion
timestamp (int64 milliseconds, modelled as Int) and result string. -/
structure BuildInfo where
  id : String
  timestamp : Int
  result : String
deriving DecidableEq

/-- The external Jenkins server, abstracted as the responses its REST API
gives: build metadata per build spec string, and the failed test cases per
build spec string.  A `none` / `Except.error` models any failure of the
corresponding lookup (network error, malformed JSON, missing build). -/
structure JenkinsState where
  buildInfoForSpec : String → Option BuildInfo
  failedTestCasesForBuildSpec : String → Except String (List TestCase)

/-- multiConfigurationJobs (src/v23/misc.go). -/
def multiConfigurationJobs : List String :=
  ["third_party-go-test", "vanadium-go-build", "vanadium-go-test",
   "vanadium-integration-test"]

/-- isMultiConfigurationJob (src/v23/misc.go). -/
def isMultiConfigurationJob (jobName : String) : Bool :=
  multiConfigurationJobs.contains jobName

/-- The build spec string used by lastCompletedBuildStatus and
getFailedTestCases (src/v23/misc.go). -/
def lastCompletedBuildSpec (jobName slaveLabel : String) : String :=
  if isMultiConfigurationJob jobName then
    jobName ++ "/L=" ++ slaveLabel ++ "/lastCompletedBuild"
  else
    jobName ++ "/lastCompletedBuild"

/-- lastCompletedBuildStatus (src/v23/misc.go): BuildInfoForSpec on the
lastCompletedBuild spec; any error is modelled as `none`. -/
def lastCompletedBuildStatus (J : JenkinsState) (jobName slaveLabel : String) :
    Option BuildInfo :=
  J.buildInfoForSpec (lastCompletedBuildSpec jobName slaveLabel)

/-- getFailedTestCases (src/v23/misc.go): failed test cases of the LAST
COMPLETED build of the given Jenkins job; note that no timestamp is
involved. -/
def getFailedTestCases (J : JenkinsState) (jobName slaveLabel : String) :
    Except String (List TestCase) :=
  J.failedTestCasesForBuildSpec (lastCompletedBuildSpec jobName slaveLabel)

/-- The per-build spec string built inside the getPostSubmitBuildStatus
loop (src/v23/misc.go). -/
def buildSpecFor (jobName slaveLabel : String) (i : Nat) : String :=
  if isMultiConfigurationJob jobName then
    jobName ++ "/L=" ++ slaveLabel ++ "/" ++ Nat.repr i
  else
    jobName ++ "/" ++ Nat.repr i

/-- The backward walk of getPostSubmitBuildStatus (src/v23/misc.go,
`for i := curId; i >= 0; i--`): fetch build i; on lookup error return
unknownStatus; if its timestamp is strictly after the cutoff continue with
i-1; otherwise return `lastResult` — which the source sets to
`buildInfo.Result`, the result of the LAST COMPLETED build, not of build
i.  Exhausting i = 0 yields unknownStatus. -/
def walkStatus (J : JenkinsState) (jobName slaveLabel : String) (cutoff : Int)
    (lastResult : String) : Nat → String
  | 0 =>
    match J.buildInfoForSpec (buildSpecFor jobName slaveLabel 0) with
    | none => unknownStatus
    | some curBuildInfo =>
      if curBuildInfo.timestamp > cutoff then unknownStatus else lastResult
  | i + 1 =>
    match J.buildInfoForSpec (buildSpecFor jobName slaveLabel (i + 1)) with
    | none => unknownStatus
    | some curBuildInfo =>
      if curBuildInfo.timestamp > cutoff then
        walkStatus J jobName slaveLabel cutoff lastResult i
      else lastResult

/-- Number of BuildInfoForSpec fetches the walk performs before returning
(instrumentation mirroring walkStatus, used to state termination bounds). -/
def walkFetches (J : JenkinsState) (jobName slaveLabel : String) (cutoff : Int) :
    Nat → Nat
  | 0 => 1
  | i + 1 =>
    match J.buildInfoForSpec (buildSpecFor jobName slaveLabel (i + 1)) with
    | none => 1
    | some curBuildInfo =>
      if curBuildInfo.timestamp > cutoff then
        1 + walkFetches J jobName slaveLabel cutoff i
      else 1

/-- Decimal digit-list parser backing goAtoi; `none` on an empty list or
any non-digit character. -/
def digitsToNat (ds : List Char) : Option Nat :=
  match ds with
  | [] => none
  | _ =>
    ds.foldl (fun acc c =>
      match acc with
      | none => none
      | some n => if c.isDigit then some (n * 10 + (c.toNat - 48)) else none)
      (some 0)

/-- Model of Go strconv.Atoi: optional sign followed by decimal digits,
`none` on any malformed input. -/
def goAtoi (s : String) : Option Int :=
  match s.data with
  | [] => none
  | c :: ds =>
    if c = '-' then (digitsToNat ds).map (fun n => -(n : Int))
    else if c = '+' then (digitsToNat ds).map (fun n => (n : Int))
    else (digitsToNat (c :: ds)).map (fun n => (n : Int))

/-- getPostSubmitBuildStatus (src/v23/misc.go): resolve the last completed
build, parse its id (strconv.Atoi modelled as goAtoi), and run the
backward walk from that id; any failure yields unknownStatus.  A negative
parsed id makes the Go loop body never run, falling through to
unknownStatus. -/
def getPostSubmitBuildStatus (J : JenkinsState) (jobName slaveLabel : String)
    (timestamp : Int) : String :=
  match lastCompletedBuildStatus J jobName slaveLabel with
  | none => unknownStatus
  | some buildInfo =>
    match goAtoi buildInfo.id with
    | none => unknownStatus
    | some curId =>
      if curId < 0 then unknownStatus
      else walkStatus J jobName slaveLabel timestamp buildInfo.result curId.toNat

/-! ## Classification engine (genFailedTestCasesGroupsForOneTest) -/

/-- genTestFullName (src/v23/misc.go): compose className.testName and
replace every "." with "::". -/
def genTestFullName (className testName : String) : String :=
  String.mk (goReplaceAll (className ++ "." ++ testName).data ".".data "::".data)

/-- The effective class name of an xUnit test case: the suite name when the
case has an empty class name, then html.UnescapeString (abstracted as the
`unescape` parameter, since the classification logic treats it as a plain
string transform). -/
def effClassname (unescape : String → String) (suiteName : String)
    (c : XUnitTestCase) : String :=
  unescape (if c.classname = "" then suiteName else c.classname)

/-- The seenTests key of one xUnit test case (src/v23/misc.go): the full
test name, suffixed with -slaveLabel when the slave label is non-empty. -/
def testKeyOf (unescape : String → String) (slaveLabel suiteName : String)
    (c : XUnitTestCase) : String :=
  let testFullName := genTestFullName (effClassname unescape suiteName c) (unescape c.name)
  if slaveLabel = "" then testFullName else testFullName ++ "-" ++ slaveLabel

/-- The inner loop of the new/known decision (src/v23/misc.go): does some
postsubmit failed test case share the exact (class name, test name) pair. -/
def matchesBaseline (postsubmitFailedTestCases : List TestCase) (cn nm : String) : Bool :=
  postsubmitFailedTestCases.any (fun p => p.className == cn && p.name == nm)

/-- The mutable state threaded through the suite/testcase loops of
genFailedTestCasesGroupsForOneTest. -/
structure OneTestState where
  groups : FailedTestCasesGroups
  curFailedTestCases : List TestCase
  seenTests : String → Nat

/-- The body of the inner testcase loop of genFailedTestCasesGroupsForOneTest
(src/v23/misc.go): apply the class-name fallback and unescaping, bump the
seenTests counter, and if the case failed append it to the NEW or KNOWN
group according to the baseline match and record it as a current failure. -/
def processTestCase (unescape : String → String)
    (postsubmitFailedTestCases : List TestCase)
    (testName slaveLabel suiteName : String)
    (st : OneTestState) (c : XUnitTestCase) : OneTestState :=
  let classname := effClassname unescape suiteName c
  let name := unescape c.name
  let testKey := testKeyOf unescape slaveLabel suiteName c
  let seenTests : String → Nat :=
    fun k => if k = testKey then st.seenTests k + 1 else st.seenTests k
  if c.failureData ≠ "" then
    let linkInfo : FailedTestCaseInfo :=
      { className := classname
        testCaseName := name
        seenTestsCount := seenTests testKey
        testName := testName
        slaveLabel := slaveLabel }
    let isNewFailure := !(matchesBaseline postsubmitFailedTestCases classname name)
    let groups :=
      if isNewFailure then
        { st.groups with newFailures := st.groups.newFailures ++ [linkInfo] }
      else
        { st.groups with knownFailures := st.groups.knownFailures ++ [linkInfo] }
    { groups := groups
      curFailedTestCases := st.curFailedTestCases ++ [{ className := classname, name := name }]
      seenTests := seenTests }
  else
    { st with seenTests := seenTests }

/-- The outer suite loop of genFailedTestCasesGroupsForOneTest. -/
def processSuite (unescape : String → String)
    (postsubmitFailedTestCases : List TestCase)
    (testName slaveLabel : String)
    (st : OneTestState) (s : XUnitTestSuite) : OneTestState :=
  s.testcases.foldl
    (processTestCase unescape postsubmitFailedTestCases testName slaveLabel s.name) st

/-- genFailedTestCasesGroupsForOneTest (src/v23/misc.go), after the xUnit
report has been parsed into `suites` (an Unmarshal failure is handled by
the caller, which skips the test): run the suite/testcase loops, then
populate the FIXED group with every postsubmit failed test case that equals
no current failed test case.  Returns the groups and the updated seenTests
counter. -/
def genFailedTestCasesGroupsForOneTest (unescape : String → String)
    (testResult : TestResultInfo) (suites : List XUnitTestSuite)
    (seenTests : String → Nat)
    (postsubmitFailedTestCases : List TestCase) :
    FailedTestCasesGroups × (String → Nat) :=
  let slaveLabel := testResult.slaveLabel
  let testName := testResult.testName
  let st0 : OneTestState := ⟨⟨[], [], []⟩, [], seenTests⟩
  let st := suites.foldl
    (processSuite unescape postsubmitFailedTestCases testName slaveLabel) st0
  let fixedInfos := (postsubmitFailedTestCases.filter
      (fun p => st.curFailedTestCases.all (fun c => !(p.Equal c)))).map
      (fun p => { className := p.className
                  testCaseName := p.name
                  seenTestsCount := 0
                  testName := ""
                  slaveLabel := "" : FailedTestCaseInfo })
  ({ st.groups with fixedFailures := st.groups.fixedFailures ++ fixedInfos },
   st.seenTests)

/-! Specification-side projections used to state theorems about the
classification engine. -/

/-- The (class name, test name) identity of a grouped entry. -/
def proj (i : FailedTestCaseInfo) : String × String :=
  (i.className, i.testCaseName)

/-- The effective (class name, test name) pairs of the failing cases of a
list of xUnit test cases, in encounter order. -/
def failingCasesOf (unescape : String → String) (suiteName : String)
    (cases : List XUnitTestCase) : List (String × String) :=
  (cases.filter (fun c => c.failureData ≠ "")).map
    (fun c => (effClassname unescape suiteName c, unescape c.name))

/-- The failing (class name, test name) pairs of a whole parsed report. -/
def failingCasesOfSuites (unescape : String → String)
    (suites : List XUnitTestSuite) : List (String × String) :=
  (suites.map (fun s => failingCasesOf unescape s.name s.testcases)).flatten

/-- All seenTests keys touched while processing a whole parsed report. -/
def keysOfSuites (unescape : String → String) (slaveLabel : String)
    (suites : List XUnitTestSuite) : List String :=
  (suites.map (fun s => s.testcases.map (testKeyOf unescape slaveLabel s.name))).flatten

/-! ## Aggregation over all tests and report assembly -/

/-- The flag variables and environment values read by the result command
(Go package-level flag globals, threaded here as explicit data):
jenkinsBuildNumberFlag, presubmitTestJobFlag, reviewTargetRefsFlag,
projectsFlag, the TESTS environment variable, and jenkinsBaseJobUrl. -/
structure Flags where
  jenkinsBuildNumber : Int
  presubmitTestJob : String
  reviewTargetRefs : String
  projects : String
  testsEnv : String
  jenkinsBaseJobUrl : String

/-- The external world as seen by the result command: the Jenkins server,
the collected xUnit report per (test name, slave label) — `none` when
ReadFile fails, `some none` when xml.Unmarshal fails, `some (some suites)`
when parsed —, the master build result (none models a failed lookup), the
build cop lookup, the Gerrit query for refs using the Verified label
(`none` models any pre-posting Gerrit error, after which nothing is
posted), an abstraction of net/url Parse composed with String, the
html.UnescapeString transform, and the flag values. -/
structure World where
  jenkins : JenkinsState
  readXUnitReport : String → String → Option (Option (List XUnitTestSuite))
  masterBuildResult : Option String
  buildCop : Option String
  verifiedRefsQuery : Option (List String)
  urlParse : String → Option String
  unescape : String → String
  flags : Flags

/-- The loop body of genFailedTestCasesGroupsForAllTests (src/v23/misc.go)
for one test result: skip the test when its report file cannot be read or
parsed (logged, non-fatal); on a getFailedTestCases error proceed with an
empty postsubmit set (the source comment notes the returned slice is empty
on errors); merge the per-test groups into the accumulator by appending
per failure type, threading the seenTests counter. -/
def allTestsStep (W : World) (acc : FailedTestCasesGroups × (String → Nat))
    (testResult : TestResultInfo) : FailedTestCasesGroups × (String → Nat) :=
  match W.readXUnitReport testResult.testName testResult.slaveLabel with
  | none => acc
  | some parseResult =>
    let postsubmitFailedTestCases :=
      match getFailedTestCases W.jenkins testResult.testName testResult.slaveLabel with
      | .ok cases => cases
      | .error _ => []
    match parseResult with
    | none => acc
    | some suites =>
      let r := genFailedTestCasesGroupsForOneTest W.unescape testResult suites
        acc.2 postsubmitFailedTestCases
      ({ newFailures := acc.1.newFailures ++ r.1.newFailures
         knownFailures := acc.1.knownFailures ++ r.1.knownFailures
         fixedFailures := acc.1.fixedFailures ++ r.1.fixedFailures }, r.2)

/-- genFailedTestCasesGroupsForAllTests (src/v23/misc.go): fold the loop
body over all test results, starting from empty groups and a fresh
seenTests counter.  The function never fails (every per-test error is
logged and skipped). -/
def genFailedTestCasesGroupsForAllTests (W : World)
    (testResults : List TestResultInfo) : FailedTestCasesGroups :=
  (testResults.foldl (allTestsStep W) (⟨⟨[], [], []⟩, fun _ => 0⟩ :
    FailedTestCasesGroups × (String → Nat))).1

/-- The failed test names collected by reportTestResultsSummary
(src/v23/misc.go): every result that is neither skipped nor passed. -/
def reportTestResultsSummaryNames (testResults : List TestResultInfo) : List String :=
  (testResults.filter (fun r =>
    !(r.result.status == TestStatus.testSkipped)
      && !(r.result.status == TestStatus.testPassed))).map (fun r => r.testName)

/-- testutil.DefaultTestTimeout. Modelled from the spec: the testutil file
defining it is not under src/; the value only feeds the presentation-only
timeout annotation and no theorem depends on it. -/
def defaultTestTimeout : Int := 600000000000

/-- Rendering of a Go time.Duration value.  The exact Go format (for
example 10m0s) is presentation-only; this model prints the raw nanosecond
count, which no theorem depends on. -/
def showDuration (d : Int) : String :=
  Int.repr d ++ "ns"

/-- One line of the test results summary (reportTestResultsSummary,
src/v23/misc.go): skipped marker, or the postsubmit-status transition
arrow with the multi-configuration label suffix and timeout annotation. -/
def summaryLine (W : World) (resultInfo : TestResultInfo) : String :=
  let name := resultInfo.testName
  let result := resultInfo.result
  if result.status = TestStatus.testSkipped then
    "skipped " ++ name ++ "\n"
  else
    let lastStatus := getPostSubmitBuildStatus W.jenkins name resultInfo.slaveLabel
      resultInfo.timestamp
    let lastStatusString :=
      if lastStatus = unknownStatus then "?"
      else if lastStatus = "SUCCESS" then "✔" else "✖"
    let curStatusString := if result.status = TestStatus.testPassed then "✔" else "✖"
    let nameString :=
      if isMultiConfigurationJob name then
        name ++ " [" ++
          String.mk (goReplaceAll resultInfo.slaveLabel.data "-slave".data "".data) ++ "]"
      else name
    let line := lastStatusString ++ " ➔ " ++ curStatusString ++ ": " ++ nameString
    if result.status = TestStatus.testTimedOut then
      let timeoutValue :=
        if result.timeoutValue ≠ 0 then result.timeoutValue else defaultTestTimeout
      line ++ " [TIMED OUT after " ++ showDuration timeoutValue ++ "]\n"
    else
      line ++ "\n"

/-- The text block written by reportTestResultsSummary (src/v23/misc.go).
The source produces the lines and the failed test names in one loop; the
model splits the same loop into this text and
reportTestResultsSummaryNames, both pure functions of the same input. -/
def reportTestResultsSummaryText (W : World) (testResults : List TestResultInfo) : String :=
  "Test results:\n" ++ String.join (testResults.map (summaryLine W))

/-- Modelled from the spec: the regular expression reURLUnsafeChars used by
safePackageOrClassName is defined outside src/; the spec (section 4.4)
says package and class path segments replace every character outside a
safe alphanumeric-underscore set with an underscore. -/
def safePackageOrClassName (name : String) : String :=
  String.mk (name.data.map (fun c => if c.isAlphanum || c = '_' then c else '_'))

/-- Modelled from the spec: the regular expression reNotIdentifierChars
used by safeTestName is defined outside src/; the spec (section 4.4)
requires a distinct sanitizer for test-name path segments, replacing every
non-identifier character with an underscore. -/
def safeTestName (name : String) : String :=
  String.mk (name.data.map (fun c => if c.isAlphanum then c else '_'))

/-- Split a character list at the LAST occurrence of `c`: returns the
characters before and after it, or `none` when `c` does not occur.  Models
the strings.Contains / strings.LastIndex slicing in genTestResultLink. -/
def splitLast (c : Char) : List Char → Option (List Char × List Char)
  | [] => none
  | x :: xs =>
    match splitLast c xs with
    | some (a, b) => some (x :: a, b)
    | none => if x = c then some ([], xs) else none

/-- The raw URL assembled by genTestResultLink (src/v23/misc.go). -/
def rawTestResultUrl (flags : Flags)
    (slaveLabel testName safePackageName safeClassName safeTestCaseName : String) : String :=
  "http://goto.google.com/vpst/" ++ Int.repr flags.jenkinsBuildNumber
    ++ "/L=" ++ slaveLabel ++ ",TEST=" ++ testName
    ++ "/testReport/" ++ safePackageName ++ "/" ++ safeClassName ++ "/" ++ safeTestCaseName

/-- The raw URL computed inside genTestResultLink (src/v23/misc.go): split
the class name at its LAST dot into package and class (package "(root)"
when there is no dot), sanitize the three path segments, and assemble the
report URL. -/
def rawUrlOf (flags : Flags)
    (className testCaseName testName slaveLabel : String) : String :=
  let (packageName, className) :=
    match splitLast ('.' : Char) className.data with
    | some (a, b) => (String.mk a, String.mk b)
    | none => ("(root)", className)
  rawTestResultUrl flags slaveLabel testName
    (safePackageOrClassName packageName)
    (safePackageOrClassName className)
    (safeTestName testCaseName)

/-- genTestResultLink (src/v23/misc.go).  The package flag global
jenkinsBuildNumberFlag becomes the flags parameter; `urlParse` abstracts
net/url Parse followed by String (the error branch drops the suffix, as in
the source; the Go error text interpolation is elided). -/
def genTestResultLink (flags : Flags) (urlParse : String → Option String)
    (className testCaseName : String) (suffix : Nat)
    (testName slaveLabel : String) : String :=
  let testFullName := genTestFullName className testCaseName
  match urlParse (rawUrlOf flags className testCaseName testName slaveLabel) with
  | some urlString =>
    let link := "- " ++ testFullName ++ "\n" ++ urlString
    if suffix > 1 then link ++ "_" ++ Nat.repr suffix else link
  | none =>
    "- " ++ testFullName ++ "\n  Result link not available"

/-- One failure-type section of the report (reportFailedTestCases,
src/v23/misc.go): skipped when empty, otherwise the pluralized header and
one generated link per entry. -/
def groupSection (flags : Flags) (urlParse : String → Option String)
    (t : failureType) (failedTestCaseInfos : List FailedTestCaseInfo) : String :=
  if failedTestCaseInfos.length = 0 then ""
  else
    let failureTypeStr := t.string ++ (if failedTestCaseInfos.length > 1 then "S" else "")
    let curLinks := failedTestCaseInfos.map (fun tc =>
      genTestResultLink flags urlParse tc.className tc.testCaseName tc.seenTestsCount
        tc.testName tc.slaveLabel)
    "\n" ++ failureTypeStr ++ ":\n" ++ String.intercalate "\n" curLinks ++ "\n\n"

/-- The failure-group text of the report, in the fixed order NEW, KNOWN,
FIXED (reportFailedTestCases, src/v23/misc.go). -/
def reportFailedTestCasesText (flags : Flags) (urlParse : String → Option String)
    (groups : FailedTestCasesGroups) : String :=
  groupSection flags urlParse failureType.newFailure groups.newFailures
    ++ groupSection flags urlParse failureType.knownFailure groups.knownFailures
    ++ groupSection flags urlParse failureType.fixedFailure groups.fixedFailures

/-- Modelled from the spec: genStartPresubmitBuildLink is defined outside
src/; the spec (section 4.5) only requires a rerun link parameterized by
the refs, projects and test list. -/
def genStartPresubmitBuildLink (refs projects tests : String) : String :=
  "buildWithParameters?REFS=" ++ refs ++ "&PROJECTS=" ++ projects ++ "&TESTS=" ++ tests

/-- reportUsefulLinks (src/v23/misc.go): the master status page link, plus
the two rerun links when some test failed. -/
def reportUsefulLinksText (flags : Flags) (failedTestNames : List String) : String :=
  "\nMore details at:\n" ++ flags.jenkinsBaseJobUrl ++ "/" ++ flags.presubmitTestJob
    ++ "/" ++ Int.repr flags.jenkinsBuildNumber ++ "/\n"
    ++ (if failedTestNames.length > 0 then
      "\nTo re-run FAILED TESTS ONLY without uploading a new patch set:\n(click Proceed button on the next screen)\n"
        ++ genStartPresubmitBuildLink flags.reviewTargetRefs flags.projects
            (String.intercalate " " failedTestNames) ++ "\n"
        ++ "\nTo re-run presubmit tests without uploading a new patch set:\n(click Proceed button on the next screen)\n"
        ++ genStartPresubmitBuildLink flags.reviewTargetRefs flags.projects flags.testsEnv
        ++ "\n"
      else "")

/-- reportBuildCop (src/v23/misc.go): a lookup error writes nothing into
the report (only to the diagnostic stream). -/
def reportBuildCopText (buildCop : Option String) : String :=
  match buildCop with
  | none => ""
  | some b => "\nCurrent Build Cop: " ++ b ++ "\n\n"

/-- mergeConflictMessageTmpl instantiated with the CL reference
(src/unnamed/part_001): the complete text posted on a merge conflict. -/
def mergeConflictMessage (cl : String) : String :=
  "Possible merge conflict detected in " ++ cl
    ++ ".\nPresubmit tests will be executed after a new patchset that resolves the conflicts is submitted."

/-- One review as posted to Gerrit: target ref, message body, and the
label map (gerrit.PostReview arguments). -/
structure PostedReview where
  ref : String
  message : String
  labels : List (String × String)
deriving DecidableEq

/-- postMessage (src/v23/misc.go): resolve which refs use the Verified
label (any pre-posting Gerrit failure — base URL check, credentials, the
query — is modelled by verifiedRefsQuery = none, and nothing is posted),
then post one review per ref, attaching Verified = 1 on success and -1
otherwise, only on refs that use the label.  The per-ref PostReview calls
are modelled as succeeding. -/
def postMessage (verifiedRefsQuery : Option (List String)) (message : String)
    (refs : List String) (success : Bool) : List PostedReview :=
  match verifiedRefsQuery with
  | none => []
  | some vrefs =>
    refs.map (fun ref =>
      { ref := ref
        message := message
        labels :=
          if vrefs.contains ref then
            [("Verified", if success then "1" else "-1")]
          else [] })

/-- The scan of reportMergeConflicts (src/v23/misc.go): the first test
result whose status is TestFailedMergeConflict, if any; the source posts
the merge conflict message for that result and stops. -/
def findMergeConflict (testResults : List TestResultInfo) : Option TestResultInfo :=
  testResults.find? (fun r => r.result.status == TestStatus.testFailedMergeConflict)

/-- reportFailedPresubmitBuild (src/v23/misc.go): true exactly when the
master build lookup succeeded with result FAILURE; lookup errors are
logged and treated as not failed. -/
def reportFailedPresubmitBuild (masterBuildResult : Option String) : Bool :=
  match masterBuildResult with
  | none => false
  | some r => r == "FAILURE"

/-- The NEW-failure entries that determine the posted vote: the source
computes numNewFailures = len(groups[newFailure]) via reportFailedTestCases
only when some test failed, and leaves it 0 otherwise
(postTestReport, src/v23/misc.go). -/
def newFailuresReported (W : World) (testResults : List TestResultInfo) :
    List FailedTestCaseInfo :=
  if (reportTestResultsSummaryNames testResults).isEmpty then []
  else (genFailedTestCasesGroupsForAllTests W testResults).newFailures

/-- postTestReport (src/v23/misc.go), returning the reviews posted to
Gerrit.  Control flow follows the source: (1) zero test results — return
without posting; (2) failed presubmit master build — a retry notice is
written into the local buffer and the function returns, posting nothing;
(3) some result has a merge conflict status — post only the merge conflict
message with success = false; (4) otherwise post the assembled report with
success exactly when the number of NEW failures is zero. -/
def postTestReport (W : World) (testResults : List TestResultInfo)
    (refs : List String) : List PostedReview :=
  if testResults.length = 0 then []
  else if reportFailedPresubmitBuild W.masterBuildResult then []
  else
    match findMergeConflict testResults with
    | some resultInfo =>
      postMessage W.verifiedRefsQuery
        (mergeConflictMessage resultInfo.result.mergeConflictCL) refs false
    | none =>
      let failedTestNames := reportTestResultsSummaryNames testResults
      let groupsText :=
        if failedTestNames.isEmpty then ""
        else reportFailedTestCasesText W.flags W.urlParse
          (genFailedTestCasesGroupsForAllTests W testResults)
      let numNewFailures := (newFailuresReported W testResults).length
      let report := reportBuildCopText W.buildCop
        ++ reportTestResultsSummaryText W testResults
        ++ groupsText
        ++ reportUsefulLinksText W.flags failedTestNames
      postMessage W.verifiedRefsQuery report refs (numNewFailures == 0)

/-- math.MaxInt64. -/
def maxInt64 : Int := 9223372036854775807

/-- The TestResult written by recordMergeConflict (src/unnamed/part_001):
status TestFailedMergeConflict with the failing CL reference (the
TimeoutValue keeps its Go zero value). -/
def recordMergeConflictResult (failedCL : String) : TestResult :=
  { status := TestStatus.testFailedMergeConflict
    timeoutValue := 0
    mergeConflictCL := failedCL }

/-- The timestamp recordMergeConflict writes into the status file
(src/unnamed/part_001): math.MaxInt64, chosen so that the backward walk
terminates after its first iteration. -/
def recordMergeConflictTimestamp : Int := maxInt64

/-- Sum, over the submitted test results, of the numbers of failing cases
in the reports that could be read and parsed (specification-side count
used to state classification totals). -/
def totalFailingCount (W : World) (testResults : List TestResultInfo) : Nat :=
  (testResults.map (fun r =>
    match W.readXUnitReport r.testName r.slaveLabel with
    | some (some suites) => (failingCasesOfSuites W.unescape suites).length
    | _ => 0)).sum

/-- All failing (class name, test name) pairs of the run, in shard order
(specification-side list used to state the all-NEW property; a test whose
report cannot be read or parsed contributes nothing). -/
def allFailingCases (W : World) (testResults : List TestResultInfo) :
    List (String × String) :=
  (testResults.map (fun r =>
    match W.readXUnitReport r.testName r.slaveLabel with
    | some (some suites) => failingCasesOfSuites W.unescape suites
    | _ => [])).flatten

/-! ## Concrete instances used by witnesses and counterexamples -/

/-- A concrete Jenkins history: the last completed build is build 1
(timestamp 100, result SUCCESS, failing case Cls.last), build 0 has
timestamp 40 and result FAILURE with failing case Cls.old. -/
def jenkinsC3 : JenkinsState where
  buildInfoForSpec := fun spec =>
    if spec = "job/lastCompletedBuild" then some ⟨"1", 100, "SUCCESS"⟩
    else if spec = "job/1" then some ⟨"1", 100, "SUCCESS"⟩
    else if spec = "job/0" then some ⟨"0", 40, "FAILURE"⟩
    else none
  failedTestCasesForBuildSpec := fun spec =>
    if spec = "job/lastCompletedBuild" then Except.ok [⟨"Cls", "last"⟩]
    else if spec = "job/0" then Except.ok [⟨"Cls", "old"⟩]
    else Except.error "not found"

/-- A concrete parsed xUnit suite with one failing and one passing case. -/
def suiteC : XUnitTestSuite :=
  ⟨"suiteA", [⟨"pkg.Cls", "testOne", "assert failed"⟩, ⟨"pkg.Cls", "testTwo", ""⟩]⟩

/-- A concrete test result record with a failed status. -/
def trC : TestResultInfo :=
  ⟨⟨TestStatus.testFailed, 0, ""⟩, "vanadium-go-test", "linux-slave", 1000, ""⟩

/-- A concrete test result record carrying a merge conflict status. -/
def trConflict : TestResultInfo :=
  ⟨⟨TestStatus.testFailedMergeConflict, 0, "http://go/vcl/1012/2"⟩,
   "vanadium-go-build", "linux-slave", 0, ""⟩

/-- A concrete world: healthy master build, every baseline lookup errors,
every report read yields suiteC, Gerrit reachable with one Verified ref. -/
def worldC4 : World where
  jenkins := ⟨fun _ => none, fun _ => Except.error "unreachable"⟩
  readXUnitReport := fun _ _ => some (some [suiteC])
  masterBuildResult := some "SUCCESS"
  buildCop := none
  verifiedRefsQuery := some ["refs/changes/1"]
  urlParse := fun s => some s
  unescape := id
  flags := ⟨88, "vanadium-presubmit-test", "refs/changes/1", "release.go.core", "",
    "http://jenkins"⟩

/-- worldC4 with a FAILURE master build result. -/
def worldC5 : World :=
  { worldC4 with masterBuildResult := some "FAILURE" }

/-- worldC4 with a baseline that lists the failing case of suiteC, so the
current failure is a KNOWN failure. -/
def worldC9 : World :=
  { worldC4 with jenkins := ⟨fun _ => none, fun _ => Except.ok [⟨"pkg.Cls", "testOne"⟩]⟩ }

/-! ## Characterization lemmas for the classification engine -/

/-- Fuel-generic form: with enough fuel, replacing the single-character
pattern `[c]` can only produce characters of the replacement or characters
of `s` different from `c`. -/
theorem mem_goReplaceAllAux_single {c : Char} {rep : List Char} :
    ∀ (fuel : Nat) (s : List Char), s.length ≤ fuel →
      ∀ a ∈ goReplaceAllAux [c] rep fuel s, a ∈ rep ∨ (a ∈ s ∧ a ≠ c) := by
  intro fuel
  induction fuel with
  | zero =>
    intro s hs a ha
    have : s = [] := List.length_eq_zero.mp (Nat.le_zero.mp hs)
    subst this
    simp [goReplaceAllAux] at ha
  | succ fuel ih =>
    intro s hs a ha
    match s with
    | [] => simp [goReplaceAllAux] at ha
    | x :: xs =>
      rw [goReplaceAllAux] at ha
      by_cases hx : x = c
      · subst hx
        have hpre : ([x] : List Char).isPrefixOf (x :: xs) = true := by
          simp [List.isPrefixOf]
        rw [if_pos ⟨by simp, hpre⟩] at ha
        simp only [List.length_cons, List.length_nil, Nat.zero_add, List.drop_succ_cons,
          List.drop_zero, List.mem_append] at ha
        rcases ha with ha | ha
        · exact Or.inl ha
        · have hxs : xs.length ≤ fuel := by
            simp only [List.length_cons] at hs
            omega
          rcases ih xs hxs a ha with h | ⟨h1, h2⟩
          · exact Or.inl h
          · exact Or.inr ⟨List.mem_cons_of_mem _ h1, h2⟩
      · have hpre : ¬(([c] : List Char).isPrefixOf (x :: xs) = true) := by
          simp [List.isPrefixOf]
          intro hcx
          exact hx hcx.symm
        rw [if_neg (by intro hcon; exact hpre hcon.2)] at ha
        rcases List.mem_cons.mp ha with ha | ha
        · subst ha
          exact Or.inr ⟨List.mem_cons_self _ _, fun hco => hx hco⟩
        · have hxs : xs.length ≤ fuel := by
            simp only [List.length_cons] at hs
            omega
          rcases ih xs hxs a ha with h | ⟨h1, h2⟩
          · exact Or.inl h
          · exact Or.inr ⟨List.mem_cons_of_mem _ h1, h2⟩

/-- Replacing the single-character pattern `[c]` can only produce characters
of the replacement or characters of `s` different from `c`. -/
theorem mem_goReplaceAll_single {c : Char} {rep : List Char}
    (s : List Char) : ∀ a ∈ goReplaceAll s [c] rep, a ∈ rep ∨ (a ∈ s ∧ a ≠ c) :=
  mem_goReplaceAllAux_single s.length s (Nat.le_refl _)

theorem length_filter_split {α : Type} (l : List α) (p : α → Bool) :
    (l.filter p).length + (l.filter (fun a => !(p a))).length = l.length := by
  induction l with
  | nil => simp
  | cons x xs ih =>
    by_cases h : p x = true <;> simp [List.filter_cons, h] <;> omega

theorem foldCases_spec (u : String → String) (ps : List TestCase)
    (tn lbl sn : String) :
    ∀ (cases : List XUnitTestCase) (st : OneTestState),
    ((cases.foldl (processTestCase u ps tn lbl sn) st).groups.newFailures.map proj
        = st.groups.newFailures.map proj
          ++ (failingCasesOf u sn cases).filter (fun q => !(matchesBaseline ps q.1 q.2)))
    ∧ ((cases.foldl (processTestCase u ps tn lbl sn) st).groups.knownFailures.map proj
        = st.groups.knownFailures.map proj
          ++ (failingCasesOf u sn cases).filter (fun q => matchesBaseline ps q.1 q.2))
    ∧ ((cases.foldl (processTestCase u ps tn lbl sn) st).groups.fixedFailures
        = st.groups.fixedFailures)
    ∧ ((cases.foldl (processTestCase u ps tn lbl sn) st).curFailedTestCases
        = st.curFailedTestCases
          ++ (failingCasesOf u sn cases).map (fun q => (⟨q.1, q.2⟩ : TestCase)))
    ∧ (∀ k, (cases.foldl (processTestCase u ps tn lbl sn) st).seenTests k
        = st.seenTests k + (cases.map (testKeyOf u lbl sn)).count k) := by
  intro cases
  induction cases with
  | nil =>
    intro st
    refine ⟨?_, ?_, ?_, ?_, ?_⟩ <;> simp [failingCasesOf]
  | cons c cs ih =>
    intro st
    obtain ⟨h1, h2, h3, h4, h5⟩ := ih (processTestCase u ps tn lbl sn st c)
    by_cases hf : c.failureData = ""
    · have hst : processTestCase u ps tn lbl sn st c
          = { st with seenTests := fun k =>
                if k = testKeyOf u lbl sn c then st.seenTests k + 1 else st.seenTests k } := by
        simp [processTestCase, hf]
      refine ⟨?_, ?_, ?_, ?_, ?_⟩
      · rw [List.foldl_cons, h1, hst]
        simp [failingCasesOf, List.filter_cons, hf]
      · rw [List.foldl_cons, h2, hst]
        simp [failingCasesOf, List.filter_cons, hf]
      · rw [List.foldl_cons, h3, hst]
      · rw [List.foldl_cons, h4, hst]
        simp [failingCasesOf, List.filter_cons, hf]
      · intro k
        rw [List.foldl_cons, h5 k, hst]
        simp only [List.map_cons, List.count_cons]
        by_cases hk : k = testKeyOf u lbl sn c
        · simp [hk]
          omega
        · have hk' : ¬(testKeyOf u lbl sn c = k) := fun hco => hk hco.symm
          simp [hk, hk']
    · by_cases hm : matchesBaseline ps (effClassname u sn c) (u c.name) = true
      · have hst : processTestCase u ps tn lbl sn st c
            = { groups :=
                  { st.groups with knownFailures := st.groups.knownFailures
                      ++ [⟨effClassname u sn c, u c.name,
                           st.seenTests (testKeyOf u lbl sn c) + 1, tn, lbl⟩] }
                curFailedTestCases := st.curFailedTestCases
                      ++ [⟨effClassname u sn c, u c.name⟩]
                seenTests := fun k =>
                  if k = testKeyOf u lbl sn c then st.seenTests k + 1 else st.seenTests k } := by
          simp [processTestCase, hf, hm]
        refine ⟨?_, ?_, ?_, ?_, ?_⟩
        · rw [List.foldl_cons, h1, hst]
          simp [failingCasesOf, List.filter_cons, hf, hm]
        · rw [List.foldl_cons, h2, hst]
          simp [failingCasesOf, List.filter_cons, hf, hm, proj]
        · rw [List.foldl_cons, h3, hst]
        · rw [List.foldl_cons, h4, hst]
          simp [failingCasesOf, List.filter_cons, hf]
        · intro k
          rw [List.foldl_cons, h5 k, hst]
          simp only [List.map_cons, List.count_cons]
          by_cases hk : k = testKeyOf u lbl sn c
          · simp [hk]
            omega
          · have hk' : ¬(testKeyOf u lbl sn c = k) := fun hco => hk hco.symm
            simp [hk, hk']
      · have hm' : matchesBaseline ps (effClassname u sn c) (u c.name) = false := by
          simpa using hm
        have hst : processTestCase u ps tn lbl sn st c
            = { groups :=
                  { st.groups with newFailures := st.groups.newFailures
                      ++ [⟨effClassname u sn c, u c.name,
                           st.seenTests (testKeyOf u lbl sn c) + 1, tn, lbl⟩] }
                curFailedTestCases := st.curFailedTestCases
                      ++ [⟨effClassname u sn c, u c.name⟩]
                seenTests := fun k =>
                  if k = testKeyOf u lbl sn c then st.seenTests k + 1 else st.seenTests k } := by
          simp [processTestCase, hf, hm']
        refine ⟨?_, ?_, ?_, ?_, ?_⟩
        · rw [List.foldl_cons, h1, hst]
          simp [failingCasesOf, List.filter_cons, hf, hm', proj]
        · rw [List.foldl_cons, h2, hst]
          simp [failingCasesOf, List.filter_cons, hf, hm']
        · rw [List.foldl_cons, h3, hst]
        · rw [List.foldl_cons, h4, hst]
          simp [failingCasesOf, List.filter_cons, hf]
        · intro k
          rw [List.foldl_cons, h5 k, hst]
          simp only [List.map_cons, List.count_cons]
          by_cases hk : k = testKeyOf u lbl sn c
          · simp [hk]
            omega
          · have hk' : ¬(testKeyOf u lbl sn c = k) := fun hco => hk hco.symm
            simp [hk, hk']

theorem foldSuites_spec (u : String → String) (ps : List TestCase) (tn lbl : String) :
    ∀ (suites : List XUnitTestSuite) (st : OneTestState),
    ((suites.foldl (processSuite u ps tn lbl) st).groups.newFailures.map proj
        = st.groups.newFailures.map proj
          ++ (failingCasesOfSuites u suites).filter (fun q => !(matchesBaseline ps q.1 q.2)))
    ∧ ((suites.foldl (processSuite u ps tn lbl) st).groups.knownFailures.map proj
        = st.groups.knownFailures.map proj
          ++ (failingCasesOfSuites u suites).filter (fun q => matchesBaseline ps q.1 q.2))
    ∧ ((suites.foldl (processSuite u ps tn lbl) st).groups.fixedFailures
        = st.groups.fixedFailures)
    ∧ ((suites.foldl (processSuite u ps tn lbl) st).curFailedTestCases
        = st.curFailedTestCases
          ++ (failingCasesOfSuites u suites).map (fun q => (⟨q.1, q.2⟩ : TestCase)))
    ∧ (∀ k, (suites.foldl (processSuite u ps tn lbl) st).seenTests k
        = st.seenTests k + (keysOfSuites u lbl suites).count k) := by
  intro suites
  induction suites with
  | nil =>
    intro st
    refine ⟨?_, ?_, ?_, ?_, ?_⟩ <;> simp [failingCasesOfSuites, keysOfSuites]
  | cons s ss ih =>
    intro st
    obtain ⟨h1, h2, h3, h4, h5⟩ := ih (processSuite u ps tn lbl st s)
    obtain ⟨g1, g2, g3, g4, g5⟩ :=
      foldCases_spec u ps tn lbl s.name s.testcases st
    have hcons : failingCasesOfSuites u (s :: ss)
        = failingCasesOf u s.name s.testcases ++ failingCasesOfSuites u ss := by
      simp [failingCasesOfSuites]
    have hkeys : keysOfSuites u lbl (s :: ss)
        = s.testcases.map (testKeyOf u lbl s.name) ++ keysOfSuites u lbl ss := by
      simp [keysOfSuites]
    refine ⟨?_, ?_, ?_, ?_, ?_⟩
    · rw [List.foldl_cons, h1, hcons]
      show (processSuite u ps tn lbl st s).groups.newFailures.map proj ++ _ = _
      rw [processSuite, g1, List.filter_append, List.append_assoc]
    · rw [List.foldl_cons, h2, hcons]
      show (processSuite u ps tn lbl st s).groups.knownFailures.map proj ++ _ = _
      rw [processSuite, g2, List.filter_append, List.append_assoc]
    · rw [List.foldl_cons, h3]
      exact g3
    · rw [List.foldl_cons, h4, hcons]
      show (processSuite u ps tn lbl st s).curFailedTestCases ++ _ = _
      rw [processSuite, g4, List.map_append, List.append_assoc]
    · intro k
      rw [List.foldl_cons, h5 k, hkeys]
      show (processSuite u ps tn lbl st s).seenTests k + _ = _
      rw [processSuite, g5 k, List.count_append]
      omega

theorem oneTest_new_map (u : String → String) (tr : TestResultInfo)
    (suites : List XUnitTestSuite) (seen : String → Nat) (ps : List TestCase) :
    (genFailedTestCasesGroupsForOneTest u tr suites seen ps).1.newFailures.map proj
      = (failingCasesOfSuites u suites).filter (fun q => !(matchesBaseline ps q.1 q.2)) := by
  obtain ⟨h1, _, _, _, _⟩ :=
    foldSuites_spec u ps tr.testName tr.slaveLabel suites ⟨⟨[], [], []⟩, [], seen⟩
  simpa [genFailedTestCasesGroupsForOneTest] using h1

theorem oneTest_known_map (u : String → String) (tr : TestResultInfo)
    (suites : List XUnitTestSuite) (seen : String → Nat) (ps : List TestCase) :
    (genFailedTestCasesGroupsForOneTest u tr suites seen ps).1.knownFailures.map proj
      = (failingCasesOfSuites u suites).filter (fun q => matchesBaseline ps q.1 q.2) := by
  obtain ⟨_, h2, _, _, _⟩ :=
    foldSuites_spec u ps tr.testName tr.slaveLabel suites ⟨⟨[], [], []⟩, [], seen⟩
  simpa [genFailedTestCasesGroupsForOneTest] using h2

theorem all_map_testCase (p : TestCase) :
    ∀ l : List (String × String),
    ((l.map (fun q => ({ className := q.1, name := q.2 } : TestCase))).all
        (fun c => !(p.Equal c)))
      = l.all (fun q => !(p.Equal ⟨q.1, q.2⟩)) := by
  intro l
  induction l with
  | nil => rfl
  | cons x xs ih => simp [ih]

theorem oneTest_fixed (u : String → String) (tr : TestResultInfo)
    (suites : List XUnitTestSuite) (seen : String → Nat) (ps : List TestCase) :
    (genFailedTestCasesGroupsForOneTest u tr suites seen ps).1.fixedFailures
      = (ps.filter (fun p =>
            (failingCasesOfSuites u suites).all (fun q => !(p.Equal ⟨q.1, q.2⟩)))).map
          (fun p => ⟨p.className, p.name, 0, "", ""⟩) := by
  obtain ⟨_, _, h3, h4, _⟩ :=
    foldSuites_spec u ps tr.testName tr.slaveLabel suites ⟨⟨[], [], []⟩, [], seen⟩
  simp only [genFailedTestCasesGroupsForOneTest, h3, h4, List.nil_append]
  congr 1
  apply List.filter_congr
  intro p _
  exact all_map_testCase p _

theorem oneTest_seen (u : String → String) (tr : TestResultInfo)
    (suites : List XUnitTestSuite) (seen : String → Nat) (ps : List TestCase) :
    ∀ k, (genFailedTestCasesGroupsForOneTest u tr suites seen ps).2 k
      = seen k + (keysOfSuites u tr.slaveLabel suites).count k := by
  obtain ⟨_, _, _, _, h5⟩ :=
    foldSuites_spec u ps tr.testName tr.slaveLabel suites ⟨⟨[], [], []⟩, [], seen⟩
  intro k
  simpa [genFailedTestCasesGroupsForOneTest] using h5 k

/-! ## Lemmas about the backward baseline walk -/

theorem walk_cases (J : JenkinsState) (jobName slaveLabel : String)
    (cutoff : Int) (r : String) :
    ∀ n, walkStatus J jobName slaveLabel cutoff r n = unknownStatus
      ∨ walkStatus J jobName slaveLabel cutoff r n = r := by
  intro n
  induction n with
  | zero =>
    rw [walkStatus]
    rcases J.buildInfoForSpec (buildSpecFor jobName slaveLabel 0) with _ | b
    · exact Or.inl rfl
    · by_cases h : b.timestamp > cutoff
      · exact Or.inl (by simp [h])
      · exact Or.inr (by simp [h])
  | succ n ih =>
    rw [walkStatus]
    rcases J.buildInfoForSpec (buildSpecFor jobName slaveLabel (n + 1)) with _ | b
    · exact Or.inl rfl
    · by_cases h : b.timestamp > cutoff
      · simpa [h] using ih
      · exact Or.inr (by simp [h])

theorem walk_exhausted (J : JenkinsState) (jobName slaveLabel : String)
    (cutoff : Int) (r : String) :
    ∀ n, (∀ i, i ≤ n → ∀ b,
        J.buildInfoForSpec (buildSpecFor jobName slaveLabel i) = some b →
        b.timestamp > cutoff) →
      walkStatus J jobName slaveLabel cutoff r n = unknownStatus := by
  intro n
  induction n with
  | zero =>
    intro h
    rw [walkStatus]
    rcases hb : J.buildInfoForSpec (buildSpecFor jobName slaveLabel 0) with _ | b
    · rfl
    · have hts := h 0 (Nat.le_refl 0) b hb
      simp [hts]
  | succ n ih =>
    intro h
    rw [walkStatus]
    rcases hb : J.buildInfoForSpec (buildSpecFor jobName slaveLabel (n + 1)) with _ | b
    · rfl
    · have hts := h (n + 1) (Nat.le_refl _) b hb
      have hrec := ih (fun i hi b2 hb2 => h i (Nat.le_succ_of_le hi) b2 hb2)
      simp [hts, hrec]

theorem walk_hit (J : JenkinsState) (jobName slaveLabel : String)
    (cutoff : Int) (r : String) (n : Nat) (b : BuildInfo)
    (hb : J.buildInfoForSpec (buildSpecFor jobName slaveLabel n) = some b)
    (hts : ¬(b.timestamp > cutoff)) :
    walkStatus J jobName slaveLabel cutoff r n = r := by
  cases n <;> rw [walkStatus, hb] <;> simp [hts]

theorem walkFetches_le (J : JenkinsState) (jobName slaveLabel : String)
    (cutoff : Int) :
    ∀ n, walkFetches J jobName slaveLabel cutoff n ≤ n + 1 := by
  intro n
  induction n with
  | zero => rw [walkFetches]
  | succ n ih =>
    rcases hb : J.buildInfoForSpec (buildSpecFor jobName slaveLabel (n + 1)) with _ | b
    · simp [walkFetches, hb]
    · by_cases h : b.timestamp > cutoff
      · simp only [walkFetches, hb]
        simp only [h, if_true]
        omega
      · simp only [walkFetches, hb]
        simp [h]

theorem walkFetches_hit (J : JenkinsState) (jobName slaveLabel : String)
    (cutoff : Int) (n : Nat) (b : BuildInfo)
    (hb : J.buildInfoForSpec (buildSpecFor jobName slaveLabel n) = some b)
    (hts : ¬(b.timestamp > cutoff)) :
    walkFetches J jobName slaveLabel cutoff n = 1 := by
  cases n with
  | zero => rw [walkFetches]
  | succ n => rw [walkFetches, hb]; simp [hts]

/-- Whatever happens, getPostSubmitBuildStatus returns either the sentinel
unknownStatus or the result field of the LAST COMPLETED build — never the
result of the build found by the cutoff walk. -/
theorem gps_result (J : JenkinsState) (jobName slaveLabel : String) (ts : Int) :
    getPostSubmitBuildStatus J jobName slaveLabel ts = unknownStatus
    ∨ ∃ b, lastCompletedBuildStatus J jobName slaveLabel = some b
        ∧ getPostSubmitBuildStatus J jobName slaveLabel ts = b.result := by
  rcases hL : lastCompletedBuildStatus J jobName slaveLabel with _ | b
  · left
    simp [getPostSubmitBuildStatus, hL]
  · rcases hA : goAtoi b.id with _ | n
    · left
      simp [getPostSubmitBuildStatus, hL, hA]
    · by_cases hneg : n < 0
      · left
        simp [getPostSubmitBuildStatus, hL, hA, hneg]
      · have hG : getPostSubmitBuildStatus J jobName slaveLabel ts
            = walkStatus J jobName slaveLabel ts b.result n.toNat := by
          simp [getPostSubmitBuildStatus, hL, hA, hneg]
        rcases walk_cases J jobName slaveLabel ts b.result n.toNat with h | h
        · left
          rw [hG, h]
        · right
          exact ⟨b, rfl, by rw [hG, h]⟩

/-! ## Lemmas about aggregation with unavailable baselines -/

theorem matchesBaseline_nil (cn nm : String) : matchesBaseline [] cn nm = false := rfl

/-- One test processed against an empty postsubmit baseline: every failing
case becomes a NEW failure and the KNOWN and FIXED groups stay empty. -/
theorem oneTest_nil_baseline (u : String → String) (tr : TestResultInfo)
    (suites : List XUnitTestSuite) (seen : String → Nat) :
    ((genFailedTestCasesGroupsForOneTest u tr suites seen []).1.newFailures.map proj
        = failingCasesOfSuites u suites)
    ∧ (genFailedTestCasesGroupsForOneTest u tr suites seen []).1.knownFailures = []
    ∧ (genFailedTestCasesGroupsForOneTest u tr suites seen []).1.fixedFailures = [] := by
  refine ⟨?_, ?_, ?_⟩
  · have h := oneTest_new_map u tr suites seen []
    rw [h]
    apply List.filter_eq_self.mpr
    intro q _
    simp [matchesBaseline_nil]
  · have h := oneTest_known_map u tr suites seen []
    have : (failingCasesOfSuites u suites).filter
        (fun q => matchesBaseline [] q.1 q.2) = [] := by
      apply List.filter_eq_nil_iff.mpr
      intro q _
      simp [matchesBaseline_nil]
    rw [this] at h
    exact List.map_eq_nil_iff.mp h
  · rw [oneTest_fixed]
    simp

/-- The aggregation fold when every baseline lookup errors: each processed
test contributes all its failing cases to NEW and nothing to KNOWN or
FIXED. -/
theorem allTests_fold_error_baseline (W : World)
    (hW : ∀ s, ∃ e, W.jenkins.failedTestCasesForBuildSpec s = Except.error e) :
    ∀ (testResults : List TestResultInfo)
      (acc : FailedTestCasesGroups × (String → Nat)),
      ((testResults.foldl (allTestsStep W) acc).1.newFailures.map proj
          = acc.1.newFailures.map proj ++ allFailingCases W testResults)
      ∧ ((testResults.foldl (allTestsStep W) acc).1.knownFailures
          = acc.1.knownFailures)
      ∧ ((testResults.foldl (allTestsStep W) acc).1.fixedFailures
          = acc.1.fixedFailures) := by
  intro testResults
  induction testResults with
  | nil =>
    intro acc
    refine ⟨?_, rfl, rfl⟩
    simp [allFailingCases]
  | cons r rs ih =>
    intro acc
    obtain ⟨h1, h2, h3⟩ := ih (allTestsStep W acc r)
    have hcons : allFailingCases W (r :: rs)
        = (match W.readXUnitReport r.testName r.slaveLabel with
            | some (some suites) => failingCasesOfSuites W.unescape suites
            | _ => []) ++ allFailingCases W rs := by
      simp [allFailingCases]
    obtain ⟨e, he⟩ := hW (lastCompletedBuildSpec r.testName r.slaveLabel)
    have hstep :
        ((allTestsStep W acc r).1.newFailures.map proj
          = acc.1.newFailures.map proj
            ++ (match W.readXUnitReport r.testName r.slaveLabel with
                | some (some suites) => failingCasesOfSuites W.unescape suites
                | _ => []))
        ∧ (allTestsStep W acc r).1.knownFailures = acc.1.knownFailures
        ∧ (allTestsStep W acc r).1.fixedFailures = acc.1.fixedFailures := by
      rcases hr : W.readXUnitReport r.testName r.slaveLabel with _ | pr
      · rw [allTestsStep, hr]
        exact ⟨by simp, rfl, rfl⟩
      · rcases pr with _ | suites
        · rw [allTestsStep, hr]
          have hgf : getFailedTestCases W.jenkins r.testName r.slaveLabel
              = Except.error e := he
          rw [hgf]
          exact ⟨by simp, rfl, rfl⟩
        · have hgf : getFailedTestCases W.jenkins r.testName r.slaveLabel
              = Except.error e := he
          obtain ⟨n1, n2, n3⟩ := oneTest_nil_baseline W.unescape r suites acc.2
          rw [allTestsStep, hr, hgf]
          refine ⟨?_, ?_, ?_⟩
          · simp only [List.map_append, n1]
          · simp only [n2, List.append_nil]
          · simp only [n3, List.append_nil]
    refine ⟨?_, ?_, ?_⟩
    · rw [List.foldl_cons, h1, hstep.1, hcons, List.append_assoc]
    · rw [List.foldl_cons, h2, hstep.2.1]
    · rw [List.foldl_cons, h3, hstep.2.2]

/-- Characters of the composed display identity are never a literal dot:
every "." of className.testName is replaced by "::". -/
theorem genTestFullName_no_dot (className testName : String) :
    (genTestFullName className testName).data.all (fun a => !(a == ('.' : Char))) = true := by
  rw [List.all_eq_true]
  intro a ha
  have ha2 : a ∈ goReplaceAll (className ++ "." ++ testName).data
      [('.' : Char)] [(':' : Char), (':' : Char)] := ha
  rcases mem_goReplaceAll_single _ a ha2 with h | ⟨_, hne⟩
  · have hc : a = (':' : Char) := by
      simpa using h
    subst hc
    decide
  · simp [hne]

/-! ## Claim theorems -/

/-- C1: for every test case failing in the current run (non-empty failure
payload after parsing), classification assigns it to exactly one of NEW or
KNOWN — KNOWN exactly when some baseline case shares the (class name, test
name) pair under exact string equality, NEW otherwise — and
|NEW| + |KNOWN| equals the number of currently failing cases. -/
theorem C1_current_failures_partition (u : String → String) (tr : TestResultInfo)
    (suites : List XUnitTestSuite) (seen : String → Nat) (ps : List TestCase) :
    ((genFailedTestCasesGroupsForOneTest u tr suites seen ps).1.newFailures.map proj
        = (failingCasesOfSuites u suites).filter (fun q => !(matchesBaseline ps q.1 q.2)))
    ∧ ((genFailedTestCasesGroupsForOneTest u tr suites seen ps).1.knownFailures.map proj
        = (failingCasesOfSuites u suites).filter (fun q => matchesBaseline ps q.1 q.2))
    ∧ ((genFailedTestCasesGroupsForOneTest u tr suites seen ps).1.newFailures.length
        + (genFailedTestCasesGroupsForOneTest u tr suites seen ps).1.knownFailures.length
        = (failingCasesOfSuites u suites).length) := by
  have h1 := oneTest_new_map u tr suites seen ps
  have h2 := oneTest_known_map u tr suites seen ps
  refine ⟨h1, h2, ?_⟩
  have l1 : (genFailedTestCasesGroupsForOneTest u tr suites seen ps).1.newFailures.length
      = ((failingCasesOfSuites u suites).filter
          (fun q => !(matchesBaseline ps q.1 q.2))).length := by
    rw [← h1, List.length_map]
  have l2 : (genFailedTestCasesGroupsForOneTest u tr suites seen ps).1.knownFailures.length
      = ((failingCasesOfSuites u suites).filter
          (fun q => matchesBaseline ps q.1 q.2)).length := by
    rw [← h2, List.length_map]
  have l3 := length_filter_split (failingCasesOfSuites u suites)
    (fun q => matchesBaseline ps q.1 q.2)
  omega

/-- C2: a baseline (postsubmit) failing case lands in the FIXED group iff no
failing case of the whole current report — gathered across all its suites,
not only the suite being processed — has the same (class name, test name)
pair; the group lists exactly the non-matching baseline cases, in baseline
order. -/
theorem C2_fixed_iff_absent_from_current (u : String → String) (tr : TestResultInfo)
    (suites : List XUnitTestSuite) (seen : String → Nat) (ps : List TestCase) :
    (genFailedTestCasesGroupsForOneTest u tr suites seen ps).1.fixedFailures
      = (ps.filter (fun p =>
            (failingCasesOfSuites u suites).all (fun q => !(p.Equal ⟨q.1, q.2⟩)))).map
          (fun p => ⟨p.className, p.name, 0, "", ""⟩) :=
  oneTest_fixed u tr suites seen ps

/-- C3 counterexample: with builds 1 (timestamp 100, SUCCESS) and 0
(timestamp 40, FAILURE) and cutoff 50, the walk stops at build 0 but
returns the LAST COMPLETED build result SUCCESS, not FAILURE; and the
baseline failing set is taken from lastCompletedBuild ([Cls.last]), not
from the build satisfying the cutoff ([Cls.old]). -/
theorem C3_counterexample :
    getPostSubmitBuildStatus jenkinsC3 "job" "" 50 = "SUCCESS"
    ∧ jenkinsC3.buildInfoForSpec (buildSpecFor "job" "" 1) = some ⟨"1", 100, "SUCCESS"⟩
    ∧ jenkinsC3.buildInfoForSpec (buildSpecFor "job" "" 0) = some ⟨"0", 40, "FAILURE"⟩
    ∧ decide ((100 : Int) > 50) = true
    ∧ decide ((40 : Int) ≤ 50) = true
    ∧ ("SUCCESS" == "FAILURE") = false
    ∧ getFailedTestCases jenkinsC3 "job" "" = Except.ok [⟨"Cls", "last"⟩]
    ∧ jenkinsC3.failedTestCasesForBuildSpec (buildSpecFor "job" "" 0)
        = Except.ok [⟨"Cls", "old"⟩]
    ∧ (([(⟨"Cls", "last"⟩ : TestCase)] == [⟨"Cls", "old"⟩]) = false) :=
  ⟨by decide, by decide, by decide, by decide, by decide, by decide, rfl, rfl, by decide⟩

/-- C3 amended: the walk does start at the most recently completed build,
decrement one build at a time, skip builds strictly after the cutoff, and
stop at the first build at or before it — but the status it returns is
always that of the LAST COMPLETED build (or unknownStatus), and the
baseline failing-test-case set is fetched from lastCompletedBuild without
any timestamp walk. -/
theorem C3_amended_baseline_walk (J : JenkinsState) (jobName slaveLabel : String)
    (cutoff : Int) :
    (getPostSubmitBuildStatus J jobName slaveLabel cutoff = unknownStatus
      ∨ ∃ b, lastCompletedBuildStatus J jobName slaveLabel = some b
          ∧ getPostSubmitBuildStatus J jobName slaveLabel cutoff = b.result)
    ∧ getFailedTestCases J jobName slaveLabel
        = J.failedTestCasesForBuildSpec (lastCompletedBuildSpec jobName slaveLabel)
    ∧ (∀ (r : String) (n : Nat) (b : BuildInfo),
        J.buildInfoForSpec (buildSpecFor jobName slaveLabel n) = some b →
        b.timestamp ≤ cutoff →
        walkStatus J jobName slaveLabel cutoff r n = r)
    ∧ (∀ (r : String) (n : Nat),
        (∀ i, i ≤ n → ∀ b,
          J.buildInfoForSpec (buildSpecFor jobName slaveLabel i) = some b →
          b.timestamp > cutoff) →
        walkStatus J jobName slaveLabel cutoff r n = unknownStatus) := by
  refine ⟨gps_result J jobName slaveLabel cutoff, rfl, ?_, ?_⟩
  · intro r n b hb hts
    exact walk_hit J jobName slaveLabel cutoff r n b hb (by omega)
  · intro r n h
    exact walk_exhausted J jobName slaveLabel cutoff r n h

/-- Witness for the amended C3 statement on concrete Jenkins data. -/
theorem C3_amended_baseline_walk_witness :
    getFailedTestCases jenkinsC3 "job" ""
        = jenkinsC3.failedTestCasesForBuildSpec (lastCompletedBuildSpec "job" "")
    ∧ walkStatus jenkinsC3 "job" "" 50 "SUCCESS" 0 = "SUCCESS"
    ∧ walkStatus jenkinsC3 "job" "" (-10) "SUCCESS" 1 = unknownStatus := by
  refine ⟨(C3_amended_baseline_walk jenkinsC3 "job" "" 50).2.1, ?_, ?_⟩
  · exact (C3_amended_baseline_walk jenkinsC3 "job" "" 50).2.2.1 "SUCCESS" 0
      ⟨"0", 40, "FAILURE"⟩ (by decide) (by decide)
  · refine (C3_amended_baseline_walk jenkinsC3 "job" "" (-10)).2.2.2 "SUCCESS" 1 ?_
    intro i hi b hb
    have hcase : i = 0 ∨ i = 1 := by omega
    rcases hcase with rfl | rfl
    · have h0 : jenkinsC3.buildInfoForSpec (buildSpecFor "job" "" 0)
          = some ⟨"0", 40, "FAILURE"⟩ := by decide
      rw [h0] at hb
      obtain rfl := Option.some.inj hb
      decide
    · have h1 : jenkinsC3.buildInfoForSpec (buildSpecFor "job" "" 1)
          = some ⟨"1", 100, "SUCCESS"⟩ := by decide
      rw [h1] at hb
      obtain rfl := Option.some.inj hb
      decide

/-- C4: when every baseline lookup errors (unknown baseline), aggregation
still succeeds and classifies every currently failing case of every
readable report as NEW, with empty KNOWN and FIXED groups. -/
theorem C4_unknown_baseline_all_new (W : World) (testResults : List TestResultInfo)
    (hW : ∀ s, ∃ e, W.jenkins.failedTestCasesForBuildSpec s = Except.error e) :
    ((genFailedTestCasesGroupsForAllTests W testResults).newFailures.map proj
        = allFailingCases W testResults)
    ∧ (genFailedTestCasesGroupsForAllTests W testResults).knownFailures = []
    ∧ (genFailedTestCasesGroupsForAllTests W testResults).fixedFailures = [] := by
  obtain ⟨h1, h2, h3⟩ := allTests_fold_error_baseline W hW testResults
    ⟨⟨[], [], []⟩, fun _ => 0⟩
  refine ⟨?_, ?_, ?_⟩
  · simpa [genFailedTestCasesGroupsForAllTests] using h1
  · simpa [genFailedTestCasesGroupsForAllTests] using h2
  · simpa [genFailedTestCasesGroupsForAllTests] using h3

/-- Witness for C4 on a concrete world whose baseline lookups all error. -/
theorem C4_unknown_baseline_all_new_witness :
    (genFailedTestCasesGroupsForAllTests worldC4 [trC]).knownFailures = []
    ∧ (genFailedTestCasesGroupsForAllTests worldC4 [trC]).fixedFailures = []
    ∧ ((genFailedTestCasesGroupsForAllTests worldC4 [trC]).newFailures.map proj
        = allFailingCases worldC4 [trC])
    ∧ allFailingCases worldC4 [trC] = [("pkg.Cls", "testOne")] := by
  obtain ⟨h1, h2, h3⟩ := C4_unknown_baseline_all_new worldC4 [trC]
    (fun s => ⟨"unreachable", rfl⟩)
  exact ⟨h2, h3, h1, by decide⟩

/-- C5 counterexample: a merge conflict is present among the shard results,
yet because the failed-master-build short-circuit runs FIRST, nothing at
all is posted — in particular the report does not consist of the
merge-conflict notice, refuting the claimed preemption order. -/
theorem C5_counterexample :
    postTestReport worldC5 [trConflict] ["refs/changes/1"] = []
    ∧ findMergeConflict [trConflict] = some trConflict
    ∧ reportFailedPresubmitBuild worldC5.masterBuildResult = true
    ∧ (postMessage worldC5.verifiedRefsQuery
        (mergeConflictMessage trConflict.result.mergeConflictCL)
        ["refs/changes/1"] false).length = 1 := by
  decide

/-- C5 amended: when some shard result has a merge conflict status AND the
boxed checks before it do not fire (the result set is necessarily
non-empty, and the master build did not report FAILURE), the posted report
is exactly the merge-conflict notice for the first conflicting result,
with a failure vote — no classification groups, no summary. -/
theorem C5_amended_merge_conflict_short_circuit (W : World)
    (testResults : List TestResultInfo) (refs : List String) (ri : TestResultInfo)
    (hmaster : reportFailedPresubmitBuild W.masterBuildResult = false)
    (hfind : findMergeConflict testResults = some ri) :
    postTestReport W testResults refs
      = postMessage W.verifiedRefsQuery
          (mergeConflictMessage ri.result.mergeConflictCL) refs false := by
  have hne : testResults ≠ [] := by
    intro h
    subst h
    simp [findMergeConflict] at hfind
  have hlen : ¬(testResults.length = 0) := by
    simpa [List.length_eq_zero] using hne
  rw [postTestReport, if_neg hlen, hmaster]
  simp [hfind]

/-- Witness for the amended C5 statement on a concrete world with a healthy
master build. -/
theorem C5_amended_witness :
    postTestReport worldC4 [trConflict] ["refs/changes/1"]
      = postMessage worldC4.verifiedRefsQuery
          (mergeConflictMessage trConflict.result.mergeConflictCL)
          ["refs/changes/1"] false
    ∧ (postTestReport worldC4 [trConflict] ["refs/changes/1"]).map
        (fun pr => pr.message)
      = [mergeConflictMessage "http://go/vcl/1012/2"] := by
  refine ⟨C5_amended_merge_conflict_short_circuit worldC4 [trConflict]
    ["refs/changes/1"] trConflict (by decide) (by decide), ?_⟩
  decide

/-- C6: with zero shard test results submitted, report generation returns
immediately and posts nothing to the review system. -/
theorem C6_zero_results_no_post (W : World) (refs : List String) :
    postTestReport W [] refs = [] := by
  simp [postTestReport]

/-- C7: the display identity className.testCaseName has every dot replaced
by "::" (no literal dot survives), while classification matching operates
on the raw unescaped (class name, test name) pairs, untouched by the
display transform. -/
theorem C7_display_identity_transform (u : String → String) (tr : TestResultInfo)
    (suites : List XUnitTestSuite) (seen : String → Nat) (ps : List TestCase)
    (className testName : String) :
    ((genTestFullName className testName).data.all (fun a => !(a == ('.' : Char))) = true)
    ∧ ((genFailedTestCasesGroupsForOneTest u tr suites seen ps).1.knownFailures.map proj
        = (failingCasesOfSuites u suites).filter (fun q => matchesBaseline ps q.1 q.2))
    ∧ ((genFailedTestCasesGroupsForOneTest u tr suites seen ps).1.newFailures.map proj
        = (failingCasesOfSuites u suites).filter (fun q => !(matchesBaseline ps q.1 q.2))) :=
  ⟨genTestFullName_no_dot className testName,
   oneTest_known_map u tr suites seen ps,
   oneTest_new_map u tr suites seen ps⟩

/-- C8: the link generator is a pure function of its inputs; the seenTests
counter keyed by (full test identity, slave label) is incremented once per
encounter of that key within a pass; and only an occurrence index above 1
appends the numeric suffix, so the occurrence-2 link is exactly the
occurrence-1 link with "_2" appended. -/
theorem C8_link_identity_and_occurrence (flags : Flags)
    (urlParse : String → Option String)
    (className testCaseName testName slaveLabel : String)
    (u : String → String) (tr : TestResultInfo) (suites : List XUnitTestSuite)
    (seen : String → Nat) (ps : List TestCase) (urlString : String)
    (hurl : urlParse (rawUrlOf flags className testCaseName testName slaveLabel)
      = some urlString) :
    (genTestResultLink flags urlParse className testCaseName 1 testName slaveLabel
        = genTestResultLink flags urlParse className testCaseName 1 testName slaveLabel)
    ∧ (∀ k, (genFailedTestCasesGroupsForOneTest u tr suites seen ps).2 k
        = seen k + (keysOfSuites u tr.slaveLabel suites).count k)
    ∧ (∀ s, s ≤ 1 →
        genTestResultLink flags urlParse className testCaseName s testName slaveLabel
          = genTestResultLink flags urlParse className testCaseName 1 testName slaveLabel)
    ∧ (∀ s, 2 ≤ s →
        genTestResultLink flags urlParse className testCaseName s testName slaveLabel
          = genTestResultLink flags urlParse className testCaseName 1 testName slaveLabel
            ++ "_" ++ Nat.repr s) := by
  refine ⟨rfl, oneTest_seen u tr suites seen ps, ?_, ?_⟩
  · intro s hs
    have h1 : ¬(s > 1) := by omega
    have h2 : ¬((1 : Nat) > 1) := by omega
    simp [genTestResultLink, hurl, h1, h2]
  · intro s hs
    have h1 : s > 1 := by omega
    have h2 : ¬((1 : Nat) > 1) := by omega
    simp [genTestResultLink, hurl, h1, h2]

/-- Witness for C8 on concrete link inputs and a concrete report pass. -/
theorem C8_link_identity_witness :
    (genTestResultLink worldC4.flags worldC4.urlParse "pkg.Cls" "testOne" 2
        "vanadium-go-test" "linux-slave"
      = genTestResultLink worldC4.flags worldC4.urlParse "pkg.Cls" "testOne" 1
          "vanadium-go-test" "linux-slave" ++ "_" ++ Nat.repr 2)
    ∧ ((genFailedTestCasesGroupsForOneTest id trC [suiteC] (fun _ => 0) []).2
          (testKeyOf id "linux-slave" "suiteA" ⟨"pkg.Cls", "testOne", "assert failed"⟩)
        = (fun _ => 0) (testKeyOf id "linux-slave" "suiteA"
            ⟨"pkg.Cls", "testOne", "assert failed"⟩)
          + (keysOfSuites id trC.slaveLabel [suiteC]).count
              (testKeyOf id "linux-slave" "suiteA"
                ⟨"pkg.Cls", "testOne", "assert failed"⟩)) := by
  refine ⟨?_, ?_⟩
  · exact (C8_link_identity_and_occurrence worldC4.flags worldC4.urlParse
      "pkg.Cls" "testOne" "vanadium-go-test" "linux-slave" id trC [suiteC]
      (fun _ => 0) [] _ rfl).2.2.2 2 (by omega)
  · exact (C8_link_identity_and_occurrence worldC4.flags worldC4.urlParse
      "pkg.Cls" "testOne" "vanadium-go-test" "linux-slave" id trC [suiteC]
      (fun _ => 0) [] _ rfl).2.1 _

/-- C9: on the normal reporting path (some results, healthy master build,
no merge conflict), the Verified vote attached to every posted review is
+1 exactly when the NEW-failure group of the generated report is empty —
KNOWN and FIXED entries do not affect the vote. -/
theorem C9_success_vote_iff_no_new (W : World) (testResults : List TestResultInfo)
    (refs : List String) (vrefs : List String)
    (hconflict : findMergeConflict testResults = none)
    (hq : W.verifiedRefsQuery = some vrefs) :
    ∀ pr ∈ postTestReport W testResults refs,
      pr.labels =
        if vrefs.contains pr.ref then
          [("Verified", if (newFailuresReported W testResults).isEmpty then "1" else "-1")]
        else [] := by
  intro pr hpr
  by_cases h0 : testResults.length = 0
  · rw [postTestReport, if_pos h0] at hpr
    simp at hpr
  · by_cases hM : reportFailedPresubmitBuild W.masterBuildResult = true
    · rw [postTestReport, if_neg h0, if_pos hM] at hpr
      simp at hpr
    · have hM' : ¬(reportFailedPresubmitBuild W.masterBuildResult = true) := hM
      rw [postTestReport, if_neg h0, if_neg hM'] at hpr
      rw [hconflict] at hpr
      simp only [hq] at hpr
      rw [postMessage] at hpr
      obtain ⟨ref, _, rfl⟩ := List.mem_map.mp hpr
      have hiff : (((newFailuresReported W testResults).length == 0) : Bool)
          = (newFailuresReported W testResults).isEmpty := by
        cases newFailuresReported W testResults <;> rfl
      simp [hiff]

/-- Witness for C9: a run whose only failing case is KNOWN (and an errorless
baseline) still gets the success vote +1. -/
theorem C9_success_vote_witness :
    (genFailedTestCasesGroupsForAllTests worldC9 [trC]).newFailures = []
    ∧ (genFailedTestCasesGroupsForAllTests worldC9 [trC]).knownFailures.length = 1
    ∧ (postTestReport worldC9 [trC] ["refs/changes/1"]).map (fun pr => pr.labels)
        = [[("Verified", "1")]] := by
  have h := C9_success_vote_iff_no_new worldC9 [trC] ["refs/changes/1"]
    ["refs/changes/1"] (by decide) rfl
  refine ⟨by decide, by decide, ?_⟩
  obtain ⟨pr, hpr⟩ : ∃ pr, postTestReport worldC9 [trC] ["refs/changes/1"] = [pr] :=
    ⟨_, rfl⟩
  have hmem : pr ∈ postTestReport worldC9 [trC] ["refs/changes/1"] := by
    rw [hpr]
    exact List.mem_singleton.mpr rfl
  have hlab := h pr hmem
  have href : pr.ref = "refs/changes/1" := by
    have hrefs : (postTestReport worldC9 [trC] ["refs/changes/1"]).map
        (fun q => q.ref) = ["refs/changes/1"] := rfl
    rw [hpr] at hrefs
    simpa using hrefs
  rw [hpr, List.map_cons, List.map_nil, hlab, href]
  decide

/-- C10: the backward walk always terminates — it performs at most
curId + 1 fetches, returns the unknown sentinel when every inspected build
is after the cutoff (builds exhausted), and with the math.MaxInt64
timestamp written by recordMergeConflict it stops at the very first
iteration (for any build whose int64 timestamp it inspects). -/
theorem C10_baseline_walk_terminates (J : JenkinsState)
    (jobName slaveLabel : String) (cutoff : Int) :
    (∀ n, walkFetches J jobName slaveLabel cutoff n ≤ n + 1)
    ∧ (∀ (r : String) (n : Nat),
        (∀ i, i ≤ n → ∀ b,
          J.buildInfoForSpec (buildSpecFor jobName slaveLabel i) = some b →
          b.timestamp > cutoff) →
        walkStatus J jobName slaveLabel cutoff r n = unknownStatus)
    ∧ recordMergeConflictTimestamp = maxInt64
    ∧ (∀ (r : String) (n : Nat) (b : BuildInfo),
        J.buildInfoForSpec (buildSpecFor jobName slaveLabel n) = some b →
        b.timestamp ≤ maxInt64 →
        walkStatus J jobName slaveLabel recordMergeConflictTimestamp r n = r
          ∧ walkFetches J jobName slaveLabel recordMergeConflictTimestamp n = 1) := by
  refine ⟨walkFetches_le J jobName slaveLabel cutoff,
    fun r n h => walk_exhausted J jobName slaveLabel cutoff r n h, rfl, ?_⟩
  intro r n b hb hts
  have hts' : ¬(b.timestamp > recordMergeConflictTimestamp) := by
    have hrmct : recordMergeConflictTimestamp = maxInt64 := rfl
    omega
  exact ⟨walk_hit J jobName slaveLabel recordMergeConflictTimestamp r n b hb hts',
    walkFetches_hit J jobName slaveLabel recordMergeConflictTimestamp n b hb hts'⟩

/-- Witness for C10 on concrete Jenkins data: bounded fetch count,
exhaustion yields the sentinel, and the MaxInt64 cutoff stops the walk at
the first inspected build. -/
theorem C10_baseline_walk_terminates_witness :
    walkFetches jenkinsC3 "job" "" 30 1 ≤ 2
    ∧ walkStatus jenkinsC3 "job" "" 30 "SUCCESS" 1 = unknownStatus
    ∧ walkStatus jenkinsC3 "job" "" recordMergeConflictTimestamp "SUCCESS" 1 = "SUCCESS"
    ∧ walkFetches jenkinsC3 "job" "" recordMergeConflictTimestamp 1 = 1 := by
  obtain ⟨ha, hex, _, hfirst⟩ := C10_baseline_walk_terminates jenkinsC3 "job" "" 30
  refine ⟨ha 1, ?_, ?_, ?_⟩
  · refine hex "SUCCESS" 1 ?_
    intro i hi b hb
    have hcase : i = 0 ∨ i = 1 := by omega
    rcases hcase with rfl | rfl
    · have h0 : jenkinsC3.buildInfoForSpec (buildSpecFor "job" "" 0)
          = some ⟨"0", 40, "FAILURE"⟩ := by decide
      rw [h0] at hb
      obtain rfl := Option.some.inj hb
      decide
    · have h1 : jenkinsC3.buildInfoForSpec (buildSpecFor "job" "" 1)
          = some ⟨"1", 100, "SUCCESS"⟩ := by decide
      rw [h1] at hb
      obtain rfl := Option.some.inj hb
      decide
  · exact (hfirst "SUCCESS" 1 ⟨"1", 100, "SUCCESS"⟩ (by decide) (by decide)).1
  · exact (hfirst "SUCCESS" 1 ⟨"1", 100, "SUCCESS"⟩ (by decide) (by decide)).2

end Presubmit
